import Mathlib

/-!
Verification of the printserver repository core against its specification.

The definitions below are shallow embeddings of the Python source:
  * `JobStatus`, `VALID_TRANSITIONS`, `Job.can_transition_to`, `Job.transition_to`
    from `backend/models/job.py`;
  * the queue views and reorder/mark-downloaded operations from
    `backend/api/operator.py`, `backend/api/agent.py`, `backend/api/jobs.py`;
  * the PDF composition geometry from `backend/services/pdf_composer.py`.

Machine datetimes are modelled as `Nat` ticks (each operation receives the
current tick `now`); SQL rows are Lean structures, tables are `List Job`;
floating point geometry is modelled over `ℚ`; the filesystem is a predicate
`String → Bool` saying which paths exist.
-/

namespace PrintServer

/-- Job lifecycle states, from `backend/models/job.py` (`class JobStatus`). -/
inductive JobStatus where
  | draft
  | pending_review
  | ready_for_print
  | queued_local
  | awaiting_operator
  | sent_to_printer
  | printed
  | failed
deriving DecidableEq, Repr

open JobStatus

/-- The fixed transition table `VALID_TRANSITIONS` of `backend/models/job.py`,
lines 27-36, embedded verbatim (one clause per dictionary entry). -/
def VALID_TRANSITIONS : JobStatus → List JobStatus
  | draft => [pending_review, ready_for_print]
  | pending_review => [ready_for_print, draft]
  | ready_for_print => [queued_local]
  | queued_local => [awaiting_operator, ready_for_print]
  | awaiting_operator => [sent_to_printer, queued_local, failed]
  | sent_to_printer => [printed, failed]
  | printed => []
  | failed => [ready_for_print]

/-- A row of the `jobs` table (`class Job` of `backend/models/job.py`), with
the columns the verified operations read or write.  Datetime columns are
`Nat` ticks; nullable columns are `Option`. -/
structure Job where
  id : Nat
  printer_id : String
  template_id : String
  status : JobStatus
  queue_position : Option Int
  local_queue_position : Option Int
  priority : Int
  copies : Int
  composed_pdf_path : Option String
  created_at : Nat
  updated_at : Nat
  submitted_at : Option Nat
  downloaded_at : Option Nat
  printed_at : Option Nat
  operator_notes : Option String
deriving DecidableEq, Repr

/-- `Job.can_transition_to` (job.py lines 92-94):
`new_status in VALID_TRANSITIONS.get(self.status, [])`. -/
def Job.can_transition_to (job : Job) (new_status : JobStatus) : Bool :=
  (VALID_TRANSITIONS job.status).contains new_status

/-- `Job.transition_to` (job.py lines 96-115).  Returns the updated row and
the boolean the Python method returns.  On rejection the row is returned
untouched (the Python method returns `False` before any assignment).  The
`now` tick stands for `datetime.utcnow()`. -/
def Job.transition_to (job : Job) (new_status : JobStatus) (now : Nat) :
    Job × Bool :=
  if ¬ job.can_transition_to new_status then (job, false)
  else
    let j1 : Job := { job with status := new_status, updated_at := now }
    let j2 : Job :=
      if new_status = ready_for_print then { j1 with submitted_at := some now }
      else if new_status = queued_local then { j1 with downloaded_at := some now }
      else if new_status = printed then { j1 with printed_at := some now }
      else j1
    (j2, true)

/-- The 11 edges enumerated by the spec sentence behind claim C1
(this list follows the spec text, not the code). -/
def specEdgesC1 : List (JobStatus × JobStatus) :=
  [(draft, pending_review),
   (pending_review, draft),
   (pending_review, ready_for_print),
   (ready_for_print, queued_local),
   (queued_local, awaiting_operator),
   (queued_local, ready_for_print),
   (awaiting_operator, sent_to_printer),
   (awaiting_operator, failed),
   (sent_to_printer, printed),
   (sent_to_printer, failed),
   (failed, ready_for_print)]

/-- The edge set actually realised by `VALID_TRANSITIONS`: the spec's 11
edges plus `draft → ready_for_print` (used by job submission straight from
draft) and `awaiting_operator → queued_local` (used by the operator
return-to-queue endpoint). -/
def codeEdges : List (JobStatus × JobStatus) :=
  specEdgesC1 ++ [(draft, ready_for_print), (awaiting_operator, queued_local)]

/-- A concrete draft job used in several counterexamples and witnesses. -/
def draftJob : Job :=
  { id := 1, printer_id := "p1", template_id := "t1", status := draft,
    queue_position := some 1, local_queue_position := none, priority := 0,
    copies := 1, composed_pdf_path := none, created_at := 0, updated_at := 0,
    submitted_at := none, downloaded_at := none, printed_at := none,
    operator_notes := none }

/-- C1 counterexample: `transition_to` accepts `draft → ready_for_print`,
an edge the claim's enumeration does not contain, so "succeeds iff the edge
is one of the enumerated eleven" is false. -/
theorem c1_counterexample :
    (draftJob.transition_to ready_for_print 1).2 = true ∧
      (draft, ready_for_print) ∉ specEdgesC1 := by
  constructor
  · rfl
  · decide

/-- C1 (amended): `transition_to` succeeds iff the (current status, target)
pair is an edge of the table — the spec's 11 edges plus
`draft → ready_for_print` and `awaiting_operator → queued_local`;
`printed` still has no outgoing edge. -/
theorem transition_succeeds_iff_code_edge (job : Job) (t : JobStatus) (now : Nat) :
    (job.transition_to t now).2 = true ↔ (job.status, t) ∈ codeEdges := by
  cases h : job.status <;> cases t <;>
    simp [Job.transition_to, Job.can_transition_to, VALID_TRANSITIONS,
      codeEdges, specEdgesC1, h]

/-- C1 amended witness: instantiated at a concrete draft job and target. -/
theorem transition_succeeds_iff_code_edge_witness :
    (draftJob.transition_to ready_for_print 1).2 = true ↔
      (draftJob.status, ready_for_print) ∈ codeEdges := by
  exact transition_succeeds_iff_code_edge draftJob ready_for_print 1

/-- C2: a rejected transition returns the job entirely unchanged together
with the rejection flag `false`. -/
theorem rejected_transition_leaves_job_unchanged (job : Job) (t : JobStatus)
    (now : Nat) (h : job.can_transition_to t = false) :
    job.transition_to t now = (job, false) := by
  simp [Job.transition_to, h]

/-- C2 witness: a draft job refuses the target `printed` and is unchanged. -/
theorem rejected_transition_leaves_job_unchanged_witness :
    draftJob.transition_to printed 5 = (draftJob, false) :=
  rejected_transition_leaves_job_unchanged draftJob printed 5 (by decide)

/-- C3 counterexample: along the accepted sequence
`draft → ready_for_print (t=1) → queued_local (t=2) → ready_for_print (t=3)`
the submission timestamp is stamped twice (value `1`, then value `3`),
refuting "each state-specific timestamp is stamped exactly once". -/
theorem c3_counterexample :
    (draftJob.transition_to ready_for_print 1).2 = true ∧
    ((draftJob.transition_to ready_for_print 1).1.transition_to queued_local 2).2 = true ∧
    (((draftJob.transition_to ready_for_print 1).1.transition_to queued_local 2).1.transition_to
        ready_for_print 3).2 = true ∧
    (draftJob.transition_to ready_for_print 1).1.submitted_at = some 1 ∧
    (((draftJob.transition_to ready_for_print 1).1.transition_to queued_local 2).1.transition_to
        ready_for_print 3).1.submitted_at = some 3 := by
  refine ⟨rfl, rfl, rfl, rfl, rfl⟩

/-- C3 (amended): every accepted transition writes exactly `status`, the
updated-at stamp, and the state-specific timestamp of the entered state
(submission time on entering `ready_for_print`, download time on entering
`queued_local`, print time on entering `printed`) — so each state-specific
timestamp is stamped on every entry into its state (re-entries re-stamp it),
and no other field is ever written. -/
theorem accepted_transition_writes_exactly (job : Job) (t : JobStatus) (now : Nat)
    (h : (job.transition_to t now).2 = true) :
    (job.transition_to t now).1 =
      { job with
          status := t,
          updated_at := now,
          submitted_at := if t = ready_for_print then some now else job.submitted_at,
          downloaded_at := if t = queued_local then some now else job.downloaded_at,
          printed_at := if t = printed then some now else job.printed_at } := by
  by_cases hc : job.can_transition_to t
  · cases t <;> simp [Job.transition_to, hc]
  · simp [Job.transition_to, hc] at h

/-- C3 amended witness: instantiated at a concrete accepted transition. -/
theorem accepted_transition_writes_exactly_witness :
    (draftJob.transition_to pending_review 4).1 =
      { draftJob with
          status := pending_review,
          updated_at := 4,
          submitted_at := if pending_review = ready_for_print then some 4 else draftJob.submitted_at,
          downloaded_at := if pending_review = queued_local then some 4 else draftJob.downloaded_at,
          printed_at := if pending_review = printed then some 4 else draftJob.printed_at } :=
  accepted_transition_writes_exactly draftJob pending_review 4 (by decide)

/-! ### Queue reorder (`reorder_queue`, backend/api/operator.py lines 71-98) -/

/-- The per-identifier query filter of the reorder loop (operator.py lines
88-92): same id, same printer, status in the two local states. -/
def reorderTarget (printer_id : String) (job_id : Nat) (j : Job) : Bool :=
  decide (j.id = job_id) && decide (j.printer_id = printer_id) &&
    (decide (j.status = queued_local) || decide (j.status = awaiting_operator))

/-- Update the first element satisfying `p` (the `.first()` row of the query;
with unique ids at most one row matches). -/
def updateFirst (p : Job → Bool) (f : Job → Job) : List Job → List Job
  | [] => []
  | j :: rest => if p j then f j :: rest else j :: updateFirst p f rest

/-- `job.local_queue_position = position` (operator.py line 95). -/
def setLocalPos (pos : Int) (j : Job) : Job :=
  { j with local_queue_position := some pos }

/-- The reorder loop: `for position, job_id in enumerate(reorder.job_ids,
start=1)` — `pos` is the 1-based position of the head identifier. -/
def reorderFrom (printer_id : String) : Int → List Nat → List Job → List Job
  | _, [], db => db
  | pos, jid :: rest, db =>
      reorderFrom printer_id (pos + 1) rest
        (updateFirst (reorderTarget printer_id jid) (setLocalPos pos) db)

/-- `reorder_queue` endpoint: verify the printer exists (404 otherwise),
then run the reorder loop and return ok. -/
def reorder_queue (printers : List String) (printer_id : String)
    (job_ids : List Nat) (db : List Job) : Except String (List Job) :=
  if printer_id ∈ printers then
    Except.ok (reorderFrom printer_id 1 job_ids db)
  else Except.error "Printer not found"

/-- The reorder behaviour in the spec's words: each job matching the scope
whose id occurs in the list receives local position `index + 1` (1-based list
order); every other row — in particular every identifier matching no such
job — is left untouched. -/
def reorderSpec (printer_id : String) (job_ids : List Nat) (db : List Job) :
    List Job :=
  db.map fun j =>
    if reorderTarget printer_id j.id j && decide (j.id ∈ job_ids) then
      setLocalPos (1 + (List.indexOf j.id job_ids : Int)) j
    else j

theorem reorderTarget_id_eq {printer_id : String} {job_id : Nat} {j : Job}
    (h : reorderTarget printer_id job_id j = true) : j.id = job_id := by
  simp only [reorderTarget, Bool.and_eq_true, decide_eq_true_eq] at h
  exact h.1.1

theorem setLocalPos_id (pos : Int) (j : Job) : (setLocalPos pos j).id = j.id := rfl

theorem reorderTarget_setLocalPos (printer_id : String) (job_id : Nat)
    (pos : Int) (j : Job) :
    reorderTarget printer_id job_id (setLocalPos pos j) =
      reorderTarget printer_id job_id j := rfl

theorem updateFirst_of_none (p : Job → Bool) (f : Job → Job) :
    ∀ db : List Job, (∀ j ∈ db, p j = false) → updateFirst p f db = db
  | [], _ => rfl
  | j :: rest, h => by
      have hj : p j = false := h j (List.mem_cons_self j rest)
      simp [updateFirst, hj,
        updateFirst_of_none p f rest (fun a ha => h a (List.mem_cons_of_mem j ha))]

theorem updateFirst_eq_map (printer_id : String) (job_id : Nat) (f : Job → Job) :
    ∀ db : List Job, (db.map Job.id).Nodup →
      updateFirst (reorderTarget printer_id job_id) f db =
        db.map (fun j => if reorderTarget printer_id job_id j then f j else j)
  | [], _ => rfl
  | j :: rest, hnd => by
      rw [List.map_cons, List.nodup_cons] at hnd
      obtain ⟨hj, hrest⟩ := hnd
      by_cases hp : reorderTarget printer_id job_id j = true
      · have hjid : j.id = job_id := reorderTarget_id_eq hp
        have hnone : ∀ a ∈ rest, reorderTarget printer_id job_id a = false := by
          intro a ha
          have haid : a.id ≠ job_id := by
            intro he
            have hmm : a.id ∈ List.map Job.id rest := List.mem_map_of_mem Job.id ha
            rw [he, ← hjid] at hmm
            exact hj hmm
          simp [reorderTarget, haid]
        have hmapid : rest.map
            (fun j => if reorderTarget printer_id job_id j then f j else j) = rest := by
          rw [List.map_congr_left (g := id) (fun a ha => by simp [hnone a ha])]
          exact List.map_id rest
        simp [updateFirst, hp, hmapid]
      · simp only [Bool.not_eq_true] at hp
        simp [updateFirst, hp, updateFirst_eq_map printer_id job_id f rest hrest]

theorem reorderFrom_eq_spec (printer_id : String) :
    ∀ (ids : List Nat) (pos : Int) (db : List Job),
      (db.map Job.id).Nodup → ids.Nodup →
      reorderFrom printer_id pos ids db =
        db.map (fun j =>
          if reorderTarget printer_id j.id j && decide (j.id ∈ ids) then
            setLocalPos (pos + (List.indexOf j.id ids : Int)) j
          else j)
  | [], pos, db, _, _ => by
      simp [reorderFrom]
  | jid :: rest, pos, db, hnd, hids => by
      rw [List.nodup_cons] at hids
      obtain ⟨hjid, hrest⟩ := hids
      rw [reorderFrom, updateFirst_eq_map printer_id jid (setLocalPos pos) db hnd]
      set u1 : Job → Job :=
        fun j => if reorderTarget printer_id jid j then setLocalPos pos j else j with hu1
      have hid1 : ∀ j : Job, (u1 j).id = j.id := by
        intro j
        by_cases h : reorderTarget printer_id jid j = true <;> simp [hu1, h, setLocalPos_id]
      have hnd1 : ((db.map u1).map Job.id).Nodup := by
        rw [List.map_map]
        have hcomp : Job.id ∘ u1 = Job.id := funext hid1
        rw [hcomp]
        exact hnd
      rw [reorderFrom_eq_spec printer_id rest (pos + 1) (db.map u1) hnd1 hrest]
      rw [List.map_map]
      refine List.map_congr_left (fun j _ => ?_)
      simp only [Function.comp_apply]
      by_cases h1 : reorderTarget printer_id jid j = true
      · have hidj : j.id = jid := reorderTarget_id_eq h1
        have hu : u1 j = setLocalPos pos j := by simp [hu1, h1]
        rw [hu]
        have hmemr : ((setLocalPos pos j).id ∈ rest) ↔ False := by
          rw [setLocalPos_id, hidj]
          simp [hjid]
        have hrt2 : reorderTarget printer_id j.id j = true := by rw [hidj]; exact h1
        have hmem3 : j.id ∈ jid :: rest := by rw [hidj]; exact List.mem_cons_self jid rest
        have hidx : List.indexOf j.id (jid :: rest) = 0 := by
          rw [hidj]; exact List.indexOf_cons_self jid rest
        simp [hmemr, hrt2, hmem3, hidx]
      · simp only [Bool.not_eq_true] at h1
        have hu : u1 j = j := by simp [hu1, h1]
        rw [hu]
        by_cases hid2 : j.id = jid
        · have hrt3 : reorderTarget printer_id j.id j = false := by rw [hid2]; exact h1
          simp [hrt3]
        · by_cases hm : j.id ∈ rest
          · have hmem4 : j.id ∈ jid :: rest := List.mem_cons_of_mem jid hm
            have hidx2 : List.indexOf j.id (jid :: rest) =
                (List.indexOf j.id rest).succ :=
              List.indexOf_cons_ne rest (Ne.symm hid2)
            by_cases hrt4 : reorderTarget printer_id j.id j = true
            · have c1 : (reorderTarget printer_id j.id j && decide (j.id ∈ rest)) = true := by
                rw [hrt4]
                simp [hm]
              have c2 : (reorderTarget printer_id j.id j &&
                  decide (j.id ∈ jid :: rest)) = true := by
                rw [hrt4]
                simp [hmem4]
              rw [if_pos c1, if_pos c2, hidx2]
              congr 1
              push_cast
              ring
            · simp only [Bool.not_eq_true] at hrt4
              simp [hrt4]
          · have hm2 : j.id ∉ jid :: rest := by
              simp [List.mem_cons, hid2, hm]
            simp [hm, hm2]

/-- C4: for every reorder request, each listed identifier that matches a job
of the printer in `queued_local`/`awaiting_operator` assigns that job the
1-based list position of the identifier; identifiers matching no such job
are ignored and no other row changes (and the call succeeds, no error). -/
theorem reorder_assigns_positions_in_list_order (printers : List String)
    (printer_id : String) (job_ids : List Nat) (db : List Job)
    (hp : printer_id ∈ printers) (hnd : (db.map Job.id).Nodup)
    (hids : job_ids.Nodup) :
    reorder_queue printers printer_id job_ids db =
      Except.ok (reorderSpec printer_id job_ids db) := by
  rw [reorder_queue, if_pos hp,
    reorderFrom_eq_spec printer_id job_ids 1 db hnd hids]
  rfl

/-- Three concrete jobs for the reorder witness: two reorderable, one in the
wrong status. -/
def reorderDb : List Job :=
  [{ draftJob with id := 10, status := queued_local, local_queue_position := some 1 },
   { draftJob with id := 11, status := awaiting_operator, local_queue_position := some 2 },
   { draftJob with id := 12, status := sent_to_printer, local_queue_position := some 3 }]

/-- C4 witness: a reorder list naming a job that has progressed (id 12) and
an unknown id (99) still succeeds; ids 11 and 10 get positions 1 and 3. -/
theorem reorder_assigns_positions_in_list_order_witness :
    reorder_queue ["p1"] "p1" [11, 12, 10, 99] reorderDb =
      Except.ok (reorderSpec "p1" [11, 12, 10, 99] reorderDb) :=
  reorder_assigns_positions_in_list_order ["p1"] "p1" [11, 12, 10, 99] reorderDb
    (by decide) (by decide) (by decide)

/-! ### Agent mark-downloaded (`mark_job_downloaded`, backend/api/agent.py
lines 112-148) -/

/-- The `func.max(Job.local_queue_position)` query of agent.py lines 140-143:
maximum local position over the printer's jobs in `queued_local` or
`awaiting_operator`, with SQL `MAX` skipping NULLs and `scalar() or 0`
defaulting an empty result to 0. -/
def maxLocalPos (printer_id : String) (db : List Job) : Int :=
  (((db.filter (fun j => decide (j.printer_id = printer_id) &&
        (decide (j.status = queued_local) ||
          decide (j.status = awaiting_operator)))).filterMap
      (fun j => j.local_queue_position)).max?).getD 0

/-- Writing back a mutated ORM row: every row with the given id is replaced
(with unique ids, exactly the fetched row). -/
def replaceJob (job_id : Nat) (newJob : Job) (db : List Job) : List Job :=
  db.map (fun j => if j.id = job_id then newJob else j)

/-- `mark_job_downloaded` (agent.py lines 112-148): fetch the job by id and
printer, reject unless it is in `ready_for_print`, transition it to
`queued_local`, then compute the max local position over the (already
flushed) table and assign `max + 1`. -/
def mark_job_downloaded (printer_id : String) (job_id : Nat) (now : Nat)
    (db : List Job) : Except String (List Job) :=
  match db.find? (fun j => decide (j.id = job_id) &&
      decide (j.printer_id = printer_id)) with
  | none => Except.error "Job not found"
  | some job =>
      if job.status ≠ ready_for_print then
        Except.error "Job is not in READY_FOR_PRINT status"
      else if (job.transition_to queued_local now).2 = false then
        Except.error "Invalid status transition"
      else
        let j1 := (job.transition_to queued_local now).1
        let db1 := replaceJob job_id j1 db
        let j2 := { j1 with local_queue_position := some (maxLocalPos printer_id db1 + 1) }
        Except.ok (replaceJob job_id j2 db1)

theorem filterMap_filter_eq (p : Job → Bool) (g : Job → Option Int) :
    ∀ l : List Job,
      (l.filter p).filterMap g = l.filterMap (fun a => if p a then g a else none)
  | [] => rfl
  | j :: rest => by
      by_cases hp : p j = true
      · simp [List.filter_cons, hp, List.filterMap_cons,
          filterMap_filter_eq p g rest]
      · simp only [Bool.not_eq_true] at hp
        simp [List.filter_cons, hp, List.filterMap_cons,
          filterMap_filter_eq p g rest]

theorem replaceJob_replaceJob (job_id : Nat) (a b : Job) (db : List Job)
    (ha : a.id = job_id) :
    replaceJob job_id b (replaceJob job_id a db) = replaceJob job_id b db := by
  rw [replaceJob, replaceJob, replaceJob, List.map_map]
  refine List.map_congr_left (fun j _ => ?_)
  simp only [Function.comp_apply]
  by_cases h : j.id = job_id
  · simp [h, ha]
  · simp [h]

/-- The row-to-value function of the max-local-position query: a job
contributes its local position when it is one of the printer's jobs in the
two local states, and nothing otherwise. -/
def localF (printer_id : String) (j : Job) : Option Int :=
  if decide (j.printer_id = printer_id) &&
      (decide (j.status = queued_local) || decide (j.status = awaiting_operator))
  then j.local_queue_position else none

/-- The list of local positions the max query aggregates, in table order. -/
def localVals (printer_id : String) (db : List Job) : List Int :=
  db.filterMap (localF printer_id)

theorem maxLocalPos_eq_localVals (printer_id : String) (db : List Job) :
    maxLocalPos printer_id db = ((localVals printer_id db).max?).getD 0 := by
  rw [maxLocalPos, filterMap_filter_eq]
  rfl

theorem filterMap_cons_toList (f : Job → Option Int) (a : Job) (l : List Job) :
    (a :: l).filterMap f = (f a).toList ++ l.filterMap f := by
  cases h : f a <;> simp [List.filterMap_cons, h]

theorem localVals_cons (printer_id : String) (x : Job) (l : List Job) :
    localVals printer_id (x :: l) =
      (localF printer_id x).toList ++ localVals printer_id l :=
  filterMap_cons_toList (localF printer_id) x l

theorem replaceJob_cons (job_id : Nat) (j1 x : Job) (l : List Job) :
    replaceJob job_id j1 (x :: l) =
      (if x.id = job_id then j1 else x) :: replaceJob job_id j1 l := rfl

/-- Writing back the flipped row splits the aggregated positions: the other
rows contribute the same values as before, and the flipped row additionally
contributes the job's own pre-existing local position (it qualified for the
query only after the status flip). -/
theorem localVals_replace_split (printer_id : String) (job_id : Nat)
    (job j1 : Job) (hid : job.id = job_id)
    (hq0 : localF printer_id job = none)
    (hq1 : localF printer_id j1 = job.local_queue_position) :
    ∀ db : List Job, (db.map Job.id).Nodup → job ∈ db →
      ∃ l1 l2,
        localVals printer_id (replaceJob job_id j1 db) =
          l1 ++ job.local_queue_position.toList ++ l2 ∧
        localVals printer_id db = l1 ++ l2 := by
  intro db
  induction db with
  | nil => exact fun _ hmem => absurd hmem (List.not_mem_nil job)
  | cons x rest ih =>
      intro hnd hmem
      rw [List.map_cons, List.nodup_cons] at hnd
      obtain ⟨hx, hrest⟩ := hnd
      rcases List.mem_cons.mp hmem with hxj | hmemr
      · subst hxj
        have htail : replaceJob job_id j1 rest = rest := by
          have hall : ∀ r ∈ rest, (fun j => if j.id = job_id then j1 else j) r = id r := by
            intro r hr
            have hrid : r.id ≠ job_id := by
              intro he
              apply hx
              have hm := List.mem_map_of_mem Job.id hr
              rw [he, ← hid] at hm
              exact hm
            simp [hrid]
          rw [replaceJob, List.map_congr_left hall, List.map_id]
        refine ⟨[], localVals printer_id rest, ?_, ?_⟩
        · rw [replaceJob_cons, if_pos hid, htail, localVals_cons, hq1,
            List.nil_append]
        · rw [localVals_cons, hq0]
          simp
      · have hxid : x.id ≠ job_id := by
          intro he
          apply hx
          have hm := List.mem_map_of_mem Job.id hmemr
          rw [hid] at hm
          rw [he]
          exact hm
        obtain ⟨l1, l2, h1, h0⟩ := ih hrest hmemr
        refine ⟨(localF printer_id x).toList ++ l1, l2, ?_, ?_⟩
        · rw [replaceJob_cons, if_neg hxid, localVals_cons, h1]
          simp [List.append_assoc]
        · rw [localVals_cons, h0]
          simp [List.append_assoc]

theorem foldl_max_shift :
    ∀ (l : List Int) (a b : Int), l.foldl max (max a b) = max b (l.foldl max a)
  | [], a, b => by
      simp [max_comm]
  | c :: l, a, b => by
      rw [List.foldl_cons, max_assoc, max_comm b c, ← max_assoc,
        foldl_max_shift l (max a c) b, List.foldl_cons]

/-- Inserting a nonnegative value into the aggregated list shifts the
`MAX ... or 0` result to the binary max with that value. -/
theorem max?_getD_insert (w : Int) (hw : 0 ≤ w) (l1 l2 : List Int) :
    ((l1 ++ w :: l2).max?).getD 0 = max (((l1 ++ l2).max?).getD 0) w := by
  cases l1 with
  | nil =>
      cases l2 with
      | nil =>
          show w = max 0 w
          exact (max_eq_right hw).symm
      | cons b l2 =>
          show List.foldl max w (b :: l2) = max (List.foldl max b l2) w
          rw [List.foldl_cons, max_comm w b, foldl_max_shift l2 b w, max_comm]
  | cons a l1 =>
      show List.foldl max a (l1 ++ w :: l2) =
        max (List.foldl max a (l1 ++ l2)) w
      rw [List.foldl_append, List.foldl_cons,
        foldl_max_shift l2 (List.foldl max a l1) w, ← List.foldl_append,
        max_comm]

/-- A `ready_for_print` job that still carries a stale local position 2
(reachable: `queued_local → ready_for_print` and `failed → ready_for_print`
never clear the column). -/
def staleJob : Job :=
  { draftJob with
      id := 21,
      status := ready_for_print,
      local_queue_position := some 2 }

/-- Table for the C6 counterexample: the printer's only local job holds
position 1, while the `ready_for_print` job 21 retains stale position 2. -/
def staleDb : List Job :=
  [{ draftJob with id := 10, status := queued_local, local_queue_position := some 1 },
   staleJob]

/-- C6 counterexample: the previous maximum local position over the
printer's `queued_local`/`awaiting_operator` jobs is 1, yet mark-downloaded
assigns job 21 position 3 (the max query runs after the status write-back
and sees the job's own stale position 2), so the assigned position is not
"previous maximum plus one". -/
theorem c6_counterexample :
    staleJob.status = ready_for_print ∧
    staleJob.local_queue_position = some 2 ∧
    maxLocalPos "p1" staleDb = 1 ∧
    mark_job_downloaded "p1" 21 7 staleDb =
      Except.ok (replaceJob 21
        { (staleJob.transition_to queued_local 7).1 with
            local_queue_position := some 3 } staleDb) ∧
    (3 : Int) ≠ maxLocalPos "p1" staleDb + 1 := by
  refine ⟨rfl, rfl, by decide, rfl, by decide⟩

/-- C6 (amended): with unique job ids and a nonnegative pre-existing local
position (an invariant: positions are only ever written as max+1 ≥ 1 or as
1-based list indices), marking a fetched `ready_for_print` job downloaded
succeeds and replaces exactly that row by its `queued_local` transition
carrying local position one more than the maximum of the previous maximum
local position over the printer's `queued_local`/`awaiting_operator` jobs
and the job's own pre-existing local position if any — the max query runs
after the status write-back, so a stale own position participates; for a
job with no pre-existing local position this is previous-max + 1.  A
fetched job not in `ready_for_print` makes the call fail with an error and
no row is written. -/
theorem mark_downloaded_assigns_stale_aware_position (printer_id : String)
    (job_id : Nat) (now : Nat) (db : List Job) (job : Job)
    (hfind : db.find? (fun j => decide (j.id = job_id) &&
      decide (j.printer_id = printer_id)) = some job)
    (hnd : (db.map Job.id).Nodup)
    (hno : ∀ v : Int, job.local_queue_position = some v → 0 ≤ v) :
    (job.status = ready_for_print →
      mark_job_downloaded printer_id job_id now db =
        Except.ok (replaceJob job_id
          { (job.transition_to queued_local now).1 with
              local_queue_position := some
                ((match job.local_queue_position with
                  | none => maxLocalPos printer_id db
                  | some w => max (maxLocalPos printer_id db) w) + 1) } db)) ∧
    (job.status ≠ ready_for_print →
      mark_job_downloaded printer_id job_id now db =
        Except.error "Job is not in READY_FOR_PRINT status") := by
  have hpred := List.find?_some hfind
  simp only [Bool.and_eq_true, decide_eq_true_eq] at hpred
  obtain ⟨hid, hpr⟩ := hpred
  have hmem : job ∈ db := List.mem_of_find?_eq_some hfind
  constructor
  · intro hst
    have hcan2 : job.can_transition_to queued_local = true := by
      rw [Job.can_transition_to, hst]
      rfl
    have hcan : (job.transition_to queued_local now).2 = true := by
      simp [Job.transition_to, hcan2]
    have hj1 : (job.transition_to queued_local now).1 =
        { job with
            status := queued_local,
            updated_at := now,
            downloaded_at := some now } := by
      simp [Job.transition_to, hcan2]
    have hq0 : localF printer_id job = none := by
      simp [localF, hst]
    have hq1 : localF printer_id (job.transition_to queued_local now).1 =
        job.local_queue_position := by
      rw [hj1]
      simp [localF, hpr]
    obtain ⟨l1, l2, hv1, hv0⟩ := localVals_replace_split printer_id job_id job
      (job.transition_to queued_local now).1 hid hq0 hq1 db hnd hmem
    have hmax : maxLocalPos printer_id
        (replaceJob job_id (job.transition_to queued_local now).1 db) =
        (match job.local_queue_position with
          | none => maxLocalPos printer_id db
          | some w => max (maxLocalPos printer_id db) w) := by
      rw [maxLocalPos_eq_localVals, maxLocalPos_eq_localVals, hv1, hv0]
      cases hjl : job.local_queue_position with
      | none => simp
      | some w =>
          show ((l1 ++ [w] ++ l2).max?).getD 0 =
            max (((l1 ++ l2).max?).getD 0) w
          rw [List.append_assoc]
          exact max?_getD_insert w (hno w hjl) l1 l2
    simp only [mark_job_downloaded, hfind]
    rw [if_neg (by simp [hst])]
    rw [if_neg (by simp [hcan])]
    rw [hmax, replaceJob_replaceJob _ _ _ _ (by rw [hj1]; exact hid)]
  · intro hst
    simp only [mark_job_downloaded, hfind]
    rw [if_pos hst]

/-- C6 amended witness: instantiated at the stale-position table, where the
assigned position is `max 1 2 + 1 = 3`. -/
theorem mark_downloaded_assigns_stale_aware_position_witness :
    (staleJob.status = ready_for_print →
      mark_job_downloaded "p1" 21 7 staleDb =
        Except.ok (replaceJob 21
          { (staleJob.transition_to queued_local 7).1 with
              local_queue_position := some
                ((match staleJob.local_queue_position with
                  | none => maxLocalPos "p1" staleDb
                  | some w => max (maxLocalPos "p1" staleDb) w) + 1) } staleDb)) ∧
    (staleJob.status ≠ ready_for_print →
      mark_job_downloaded "p1" 21 7 staleDb =
        Except.error "Job is not in READY_FOR_PRINT status") :=
  mark_downloaded_assigns_stale_aware_position "p1" 21 7 staleDb staleJob
    (by decide) (by decide)
    (fun v hv => by
      simp only [staleJob, Option.some.injEq] at hv
      omega)

/-! ### Queue views and their ORDER BY keys (operator.py lines 40-51,
agent.py lines 67-73, jobs.py lines 41-44)

Each SQL `ORDER BY c1, c2, ...` is modelled as a stable sort by the
lexicographic key `List Int` (ties are left in table order, as SQL leaves
them unspecified).  SQLite sorts an ascending nullable column with NULLs
first unless `nulls_last()` is requested. -/

/-- Encoding of an ascending nullable sort column with SQLite's default
NULLs-first placement. -/
def ascNullsFirst : Option Int → List Int
  | none => [0, 0]
  | some v => [1, v]

/-- Encoding of an ascending nullable sort column under `.nulls_last()`. -/
def ascNullsLast : Option Int → List Int
  | none => [1, 0]
  | some v => [0, v]

/-- Key of `get_operator_queue` (operator.py lines 47-51):
`local_queue_position.nulls_last(), priority.desc(), queue_position`. -/
def operatorViewKey (j : Job) : List Int :=
  ascNullsLast j.local_queue_position ++
    (-j.priority) :: ascNullsFirst j.queue_position

/-- Key of the agent's `get_pending_jobs` (agent.py lines 70-73):
`priority.desc(), queue_position`. -/
def agentViewKey (j : Job) : List Int :=
  (-j.priority) :: ascNullsFirst j.queue_position

/-- Key of `list_jobs` (jobs.py line 42):
`priority.desc(), queue_position, created_at`. -/
def listJobsKey (j : Job) : List Int :=
  (-j.priority) :: ascNullsFirst j.queue_position ++ [(j.created_at : Int)]

/-- Stable sort of a result set by a lexicographic key. -/
def sortByKey (key : Job → List Int) (l : List Job) : List Job :=
  List.insertionSort (fun a b => key a ≤ key b) l

/-- Row filter of the operator queue view (operator.py lines 40-46). -/
def operatorQueueFilter (printer_id : String) (j : Job) : Bool :=
  decide (j.printer_id = printer_id) &&
    (decide (j.status = queued_local) || decide (j.status = awaiting_operator) ||
      decide (j.status = sent_to_printer))

/-- `get_operator_queue` (the printer-existence guard is omitted: it only
produces a 404, never a differently ordered result). -/
def get_operator_queue (printer_id : String) (db : List Job) : List Job :=
  sortByKey operatorViewKey (db.filter (operatorQueueFilter printer_id))

/-- Row filter of the agent's pending-jobs view (agent.py lines 67-69). -/
def agentJobsFilter (printer_id : String) (j : Job) : Bool :=
  decide (j.printer_id = printer_id) && decide (j.status = ready_for_print)

/-- The agent's `get_pending_jobs`. -/
def get_pending_jobs (printer_id : String) (db : List Job) : List Job :=
  sortByKey agentViewKey (db.filter (agentJobsFilter printer_id))

/-- The optional printer/status filters of `list_jobs` (jobs.py lines
34-39). -/
def listJobsFilter (printer_id : Option String) (status : Option JobStatus)
    (db : List Job) : List Job :=
  let q1 := match printer_id with
    | some p => db.filter (fun j => decide (j.printer_id = p))
    | none => db
  match status with
  | some s => q1.filter (fun j => decide (j.status = s))
  | none => q1

/-- `list_jobs` (jobs.py lines 24-44): optional printer/status filters, the
three-column sort, then `offset`/`limit` pagination. -/
def list_jobs (printer_id : Option String) (status : Option JobStatus)
    (limit offset : Nat) (db : List Job) : List Job :=
  ((sortByKey listJobsKey (listJobsFilter printer_id status db)).drop
    offset).take limit

theorem sortByKey_sorted (key : Job → List Int) (l : List Job) :
    (sortByKey key l).Sorted (fun a b => key a ≤ key b) :=
  @List.sorted_insertionSort Job (fun a b => key a ≤ key b)
    (fun _ _ => inferInstance)
    ⟨fun a b => le_total (key a) (key b)⟩
    ⟨fun _ _ _ hab hbc => le_trans hab hbc⟩ l

theorem sortByKey_perm (key : Job → List Int) (l : List Job) :
    (sortByKey key l).Perm l :=
  List.perm_insertionSort (fun a b => key a ≤ key b) l

theorem listJobsFilter_subset (pid : Option String) (st : Option JobStatus)
    (db : List Job) : listJobsFilter pid st db ⊆ db := by
  intro j hj
  rcases pid with _ | p <;> rcases st with _ | s <;>
    simp only [listJobsFilter] at hj
  · exact hj
  · exact (List.mem_filter.mp hj).1
  · exact (List.mem_filter.mp hj).1
  · exact (List.mem_filter.mp (List.mem_filter.mp hj).1).1

/-- Higher-priority job that the operator view nevertheless lists second. -/
def jobA : Job :=
  { draftJob with
      id := 1,
      status := queued_local,
      priority := 5,
      local_queue_position := some 2,
      queue_position := some 1 }

/-- Lower-priority job with the smaller local position. -/
def jobB : Job :=
  { draftJob with
      id := 2,
      status := queued_local,
      priority := 0,
      local_queue_position := some 1,
      queue_position := some 2 }

/-- C5 counterexample: the operator queue view sorts by local position
first, so the job with strictly lower priority comes first — refuting
"every queue view returns jobs ordered by priority descending" as the
leading sort key. -/
theorem c5_counterexample :
    get_operator_queue "p1" [jobA, jobB] = [jobB, jobA] ∧
      jobB.priority < jobA.priority := by
  constructor
  · decide
  · decide

/-- C5 (amended): each view returns the filtered rows sorted by its own
code key — the remote listing by priority descending, authority position
ascending (NULLs first), creation time ascending; the agent view by
priority descending, authority position ascending, with no creation-time
tie-break; the operator view by local position ascending NULLs last, then
priority descending, then authority position ascending, with no
creation-time tie-break. -/
theorem queue_views_sorted_by_code_keys (printer_id : String)
    (pid : Option String) (st : Option JobStatus) (limit offset : Nat)
    (db : List Job) :
    ((get_operator_queue printer_id db).Sorted
        (fun a b => operatorViewKey a ≤ operatorViewKey b) ∧
      (get_operator_queue printer_id db).Perm
        (db.filter (operatorQueueFilter printer_id))) ∧
    ((get_pending_jobs printer_id db).Sorted
        (fun a b => agentViewKey a ≤ agentViewKey b) ∧
      (get_pending_jobs printer_id db).Perm
        (db.filter (agentJobsFilter printer_id))) ∧
    ((list_jobs pid st limit offset db).Sorted
        (fun a b => listJobsKey a ≤ listJobsKey b) ∧
      ∀ j ∈ list_jobs pid st limit offset db, j ∈ db) := by
  refine ⟨⟨sortByKey_sorted _ _, sortByKey_perm _ _⟩,
    ⟨sortByKey_sorted _ _, sortByKey_perm _ _⟩, ?_, ?_⟩
  · exact List.Pairwise.sublist
      ((List.take_sublist _ _).trans (List.drop_sublist _ _))
      (sortByKey_sorted listJobsKey (listJobsFilter pid st db))
  · intro j hj
    have hsub : list_jobs pid st limit offset db ⊆
        sortByKey listJobsKey (listJobsFilter pid st db) :=
      List.Sublist.subset
        ((List.take_sublist _ _).trans (List.drop_sublist _ _))
    have hj2 := (sortByKey_perm listJobsKey _).subset (hsub hj)
    exact listJobsFilter_subset pid st db hj2

/-! ### PDF composition (backend/services/pdf_composer.py)

Geometry is modelled over `ℚ` (the Python floats carry exact decimal
inputs here; the claims are about the arithmetic formulas, not rounding).
reportlab draw calls become `DrawOp` values in emission order; the
filesystem and image decoding are an `AssetEnv`. -/

/-- reportlab's `mm` unit: 72 / 25.4 points per millimeter. -/
def mmUnit : ℚ := 360 / 127

/-- One slot dict handed to `compose_job`: position/size in mm, rotation,
and the label asset reference. -/
structure SlotGeom where
  x : ℚ
  y : ℚ
  width : ℚ
  height : ℚ
  rotation : ℚ
  label_asset_path : Option String
deriving DecidableEq, Repr

/-- An axis-aligned box in page units. -/
structure Rect where
  x : ℚ
  y : ℚ
  width : ℚ
  height : ℚ
deriving DecidableEq, Repr

/-- One canvas drawing call, in emission order. -/
inductive DrawOp where
  | gridLine (x1 y1 x2 y2 : ℚ)
  | image (path : String) (rotation : ℚ) (r : Rect)
  | placeholderBox (rotation : ℚ) (r : Rect) (text : String)
deriving DecidableEq, Repr

/-- External world of the composer: `os.path.exists`, image decoding
(`PIL.Image.open` / `pdf2image`; `none` means the open/convert raised),
the `HAS_PDF2IMAGE` import flag, and the intrinsic page size read from a
PDF's mediabox. -/
structure AssetEnv where
  fsExists : String → Bool
  imageSize : String → Option (ℚ × ℚ)
  hasPdf2Image : Bool
  pdfPageSize : String → ℚ × ℚ

/-- `os.path.splitext(path)[1].lower()`: the extension of the final path
component, where leading dots of the basename never start an extension. -/
def extOf (path : String) : String :=
  let base := (path.data.reverse.takeWhile (fun c => c != '/')).reverse
  let core := base.dropWhile (fun c => c == '.')
  let revCore := core.reverse
  let afterDot := revCore.takeWhile (fun c => c != '.')
  if afterDot.length = revCore.length then ""
  else String.mk (('.' :: afterDot.reverse).map Char.toLower)

/-- The extensions `_place_label` routes to `_place_image` directly
(pdf_composer.py line 240). -/
def imageExtensions : List String :=
  [".png", ".jpg", ".jpeg", ".gif", ".bmp", ".tiff"]

/-- The aspect-preserving fit of `_place_image` (pdf_composer.py lines
266-281): compare content and slot aspect; fit to the tighter axis and
center the other. -/
def fitRect (x y width height imgW imgH : ℚ) : Rect :=
  let imgR := imgW / imgH
  let slotR := width / height
  if imgR > slotR then
    { x := x, y := y + (height - width / imgR) / 2,
      width := width, height := width / imgR }
  else
    { x := x + (width - height * imgR) / 2, y := y,
      width := height * imgR, height := height }

/-- `_place_image` (pdf_composer.py lines 253-292): draw the fitted image,
or nothing when opening the image raises (warning only). -/
def place_image (env : AssetEnv) (path : String) (rotation : ℚ)
    (x y width height : ℚ) : List DrawOp :=
  match env.imageSize path with
  | some wh => [DrawOp.image path rotation (fitRect x y width height wh.1 wh.2)]
  | none => []

/-- `_place_pdf` (pdf_composer.py lines 294-344): with pdf2image, convert
and draw like an image; without it, draw a grey placeholder box labelled
"PDF Label". -/
def place_pdf (env : AssetEnv) (path : String) (rotation : ℚ)
    (x y width height : ℚ) : List DrawOp :=
  if env.hasPdf2Image then
    match env.imageSize path with
    | some wh => [DrawOp.image path rotation (fitRect x y width height wh.1 wh.2)]
    | none => []
  else
    [DrawOp.placeholderBox rotation
      { x := x, y := y, width := width, height := height } "PDF Label"]

/-- `_place_label` (pdf_composer.py lines 214-251): dispatch on the file
extension; unknown extensions are tried as images and silently skipped when
that raises (`except Exception: pass`). -/
def place_label (env : AssetEnv) (path : String) (x y width height : ℚ)
    (rotation : ℚ) : List DrawOp :=
  let ext := extOf path
  if imageExtensions.contains ext then
    place_image env path rotation x y width height
  else if ext = ".pdf" then
    place_pdf env path rotation x y width height
  else
    place_image env path rotation x y width height

/-- The slot box computed by `_compose_with_template` (pdf_composer.py
lines 117-134): mm converted to points, scaled per axis by
`template_size / bed_size_pt`, and the y coordinate flipped. -/
def slotPlacementWithTemplate (template_width template_height
    bed_width_pt bed_height_pt : ℚ) (s : SlotGeom) : Rect :=
  let scale_x := template_width / bed_width_pt
  let scale_y := template_height / bed_height_pt
  let x_pt := s.x * mmUnit * scale_x
  let y_pt := s.y * mmUnit * scale_y
  let width_pt := s.width * mmUnit * scale_x
  let height_pt := s.height * mmUnit * scale_y
  { x := x_pt, y := template_height - y_pt - height_pt,
    width := width_pt, height := height_pt }

/-- A composed output page: its size, whether the template base was used,
and the drawing calls in order. -/
structure ComposedPage where
  page_width : ℚ
  page_height : ℚ
  used_template : Bool
  ops : List DrawOp
deriving DecidableEq, Repr

/-- `_compose_with_template` (pdf_composer.py lines 91-163): overlay sized
to the template page; slots with a missing/empty asset are skipped
(`continue`); each remaining slot draws at its scaled, flipped box. -/
def compose_with_template (env : AssetEnv) (template_width template_height
    bed_width_pt bed_height_pt : ℚ) (slots : List SlotGeom) : ComposedPage :=
  { page_width := template_width,
    page_height := template_height,
    used_template := true,
    ops := List.flatten (slots.map (fun s =>
      match s.label_asset_path with
      | none => []
      | some p =>
          if decide (p = "") || !env.fsExists p then []
          else
            let r := slotPlacementWithTemplate template_width template_height
              bed_width_pt bed_height_pt s
            place_label env p r.x r.y r.width r.height s.rotation)) }

/-- `int(q)` for the nonnegative quantities Python truncates here
(truncation and floor agree on nonnegatives, and every quantity truncated
by the composer — bed sizes and the grid spacing — is nonnegative). -/
def natFloor (q : ℚ) : Nat := q.num.toNat / q.den

/-- `range(0, stop, step)` for positive `step`. -/
def pyRange (stop step : Nat) : List Nat :=
  List.range' 0 ((stop + step - 1) / step) step

/-- The alignment grid of `_compose_blank_canvas` (pdf_composer.py lines
177-184): vertical then horizontal lines every `int(10 * mm)` points. -/
def gridOps (bed_width_pt bed_height_pt : ℚ) : List DrawOp :=
  let spacing := natFloor (10 * mmUnit)
  (pyRange (natFloor bed_width_pt) spacing).map
    (fun x => DrawOp.gridLine (x : ℚ) 0 (x : ℚ) bed_height_pt) ++
  (pyRange (natFloor bed_height_pt) spacing).map
    (fun y => DrawOp.gridLine 0 (y : ℚ) bed_width_pt (y : ℚ))

/-- `_compose_blank_canvas` (pdf_composer.py lines 165-212): page sized to
the bed, reference grid first, then each slot at its flipped mm position
(no scaling). -/
def compose_blank_canvas (env : AssetEnv) (bed_width_pt bed_height_pt : ℚ)
    (slots : List SlotGeom) : ComposedPage :=
  { page_width := bed_width_pt,
    page_height := bed_height_pt,
    used_template := false,
    ops := gridOps bed_width_pt bed_height_pt ++
      List.flatten (slots.map (fun s =>
        match s.label_asset_path with
        | none => []
        | some p =>
            if decide (p = "") || !env.fsExists p then []
            else
              let x_pt := s.x * mmUnit
              let y_pt := s.y * mmUnit
              let width_pt := s.width * mmUnit
              let height_pt := s.height * mmUnit
              place_label env p x_pt (bed_height_pt - y_pt - height_pt)
                width_pt height_pt s.rotation)) }

/-- `PDFComposer.compose_job` (pdf_composer.py lines 40-89): bed mm
converted to points; template mode only when a non-empty template path
exists on disk, blank canvas otherwise. -/
def compose_job (env : AssetEnv) (template_pdf_path : Option String)
    (bed_width_mm bed_height_mm : ℚ) (slots : List SlotGeom) : ComposedPage :=
  let bed_width_pt := bed_width_mm * mmUnit
  let bed_height_pt := bed_height_mm * mmUnit
  match template_pdf_path with
  | some p =>
      if decide (p ≠ "") && env.fsExists p then
        compose_with_template env (env.pdfPageSize p).1 (env.pdfPageSize p).2
          bed_width_pt bed_height_pt slots
      else compose_blank_canvas env bed_width_pt bed_height_pt slots
  | none => compose_blank_canvas env bed_width_pt bed_height_pt slots

/-- The placement rule in the spec's words behind claim C7: slot mm values
converted to page units, multiplied per axis by
`base_page_size / bed_page_size`, and the vertical coordinate then flipped
to `page_height - scaled_y - scaled_height`. -/
def specSlotPlacement (base_width base_height bed_width_pt bed_height_pt : ℚ)
    (s : SlotGeom) : Rect :=
  { x := s.x * mmUnit * (base_width / bed_width_pt),
    y := base_height - s.y * mmUnit * (base_height / bed_height_pt) -
      s.height * mmUnit * (base_height / bed_height_pt),
    width := s.width * mmUnit * (base_width / bed_width_pt),
    height := s.height * mmUnit * (base_height / bed_height_pt) }

/-- C7: in base-layer composition every slot box equals the spec formula
(per-axis scale `base_page_size / bed_page_size` applied to the page-unit
coordinates, vertical coordinate flipped after scaling), and the whole
composition draws each present slot at exactly that box. -/
theorem template_composition_places_slots_per_spec (env : AssetEnv)
    (template_width template_height bed_width_pt bed_height_pt : ℚ)
    (slots : List SlotGeom) :
    (∀ s : SlotGeom,
      slotPlacementWithTemplate template_width template_height bed_width_pt
        bed_height_pt s =
      specSlotPlacement template_width template_height bed_width_pt
        bed_height_pt s) ∧
    compose_with_template env template_width template_height bed_width_pt
        bed_height_pt slots =
      { page_width := template_width,
        page_height := template_height,
        used_template := true,
        ops := List.flatten (slots.map (fun s =>
          match s.label_asset_path with
          | none => []
          | some p =>
              if decide (p = "") || !env.fsExists p then []
              else
                place_label env p
                  (specSlotPlacement template_width template_height
                    bed_width_pt bed_height_pt s).x
                  (specSlotPlacement template_width template_height
                    bed_width_pt bed_height_pt s).y
                  (specSlotPlacement template_width template_height
                    bed_width_pt bed_height_pt s).width
                  (specSlotPlacement template_width template_height
                    bed_width_pt bed_height_pt s).height
                  s.rotation)) } := by
  constructor
  · intro s
    rfl
  · rfl

/-- C8: the aspect-fit law — when the content is relatively wider the
rendered width equals the slot width exactly and the content is centered
vertically; otherwise the rendered height equals the slot height exactly
and the content is centered horizontally; either way the content's aspect
is preserved. -/
theorem aspect_fit_law (x y width height imgW imgH : ℚ)
    (hw : 0 < width) (hh : 0 < height) (_hiw : 0 < imgW) (_hih : 0 < imgH) :
    (imgW / imgH > width / height →
      (fitRect x y width height imgW imgH).width = width ∧
      (fitRect x y width height imgW imgH).x = x ∧
      (fitRect x y width height imgW imgH).y - y =
        (height - (fitRect x y width height imgW imgH).height) / 2) ∧
    (¬ imgW / imgH > width / height →
      (fitRect x y width height imgW imgH).height = height ∧
      (fitRect x y width height imgW imgH).y = y ∧
      (fitRect x y width height imgW imgH).x - x =
        (width - (fitRect x y width height imgW imgH).width) / 2) ∧
    (fitRect x y width height imgW imgH).width /
      (fitRect x y width height imgW imgH).height = imgW / imgH := by
  have hwne : width ≠ 0 := ne_of_gt hw
  have hhne : height ≠ 0 := ne_of_gt hh
  by_cases hgt : imgW / imgH > width / height
  · have hw1 : (fitRect x y width height imgW imgH).width = width := by
      simp only [fitRect, if_pos hgt]
    have hx1 : (fitRect x y width height imgW imgH).x = x := by
      simp only [fitRect, if_pos hgt]
    have hh1 : (fitRect x y width height imgW imgH).height =
        width / (imgW / imgH) := by
      simp only [fitRect, if_pos hgt]
    have hy1 : (fitRect x y width height imgW imgH).y =
        y + (height - width / (imgW / imgH)) / 2 := by
      simp only [fitRect, if_pos hgt]
    refine ⟨fun _ => ⟨hw1, hx1, ?_⟩, fun hc => absurd hgt hc, ?_⟩
    · rw [hy1, hh1]
      ring
    · rw [hw1, hh1, div_div_eq_mul_div, mul_comm, mul_div_assoc,
        div_self hwne, mul_one]
  · have hh2 : (fitRect x y width height imgW imgH).height = height := by
      simp only [fitRect, if_neg hgt]
    have hy2 : (fitRect x y width height imgW imgH).y = y := by
      simp only [fitRect, if_neg hgt]
    have hw2 : (fitRect x y width height imgW imgH).width =
        height * (imgW / imgH) := by
      simp only [fitRect, if_neg hgt]
    have hx2 : (fitRect x y width height imgW imgH).x =
        x + (width - height * (imgW / imgH)) / 2 := by
      simp only [fitRect, if_neg hgt]
    refine ⟨fun hc => absurd hc hgt, fun _ => ⟨hh2, hy2, ?_⟩, ?_⟩
    · rw [hx2, hw2]
      ring
    · rw [hw2, hh2, mul_comm, mul_div_assoc, div_self hhne, mul_one]

/-- C8 witness: square content in a wide 2x1 slot fits to height and is
centered horizontally with offset 1/2. -/
theorem aspect_fit_law_witness :
    ((1 : ℚ) / 1 > 2 / 1 →
      (fitRect 0 0 2 1 1 1).width = 2 ∧
      (fitRect 0 0 2 1 1 1).x = 0 ∧
      (fitRect 0 0 2 1 1 1).y - 0 = (1 - (fitRect 0 0 2 1 1 1).height) / 2) ∧
    (¬ (1 : ℚ) / 1 > 2 / 1 →
      (fitRect 0 0 2 1 1 1).height = 1 ∧
      (fitRect 0 0 2 1 1 1).y = 0 ∧
      (fitRect 0 0 2 1 1 1).x - 0 = (2 - (fitRect 0 0 2 1 1 1).width) / 2) ∧
    (fitRect 0 0 2 1 1 1).width / (fitRect 0 0 2 1 1 1).height = 1 / 1 :=
  aspect_fit_law 0 0 2 1 1 1 (by norm_num) (by norm_num) (by norm_num)
    (by norm_num)

/-- Recognizer for placeholder drawing calls. -/
def isPlaceholderOp : DrawOp → Bool
  | DrawOp.placeholderBox _ _ _ => true
  | _ => false

/-- Concrete environment for the composer counterexamples: two files exist,
nothing decodes as an image, pdf2image is not installed. -/
def envNoPdf2Image : AssetEnv :=
  { fsExists := fun p => p == "label.xyz" || p == "label.pdf",
    imageSize := fun _ => none,
    hasPdf2Image := false,
    pdfPageSize := fun _ => (100, 100) }

/-- A slot whose asset has an unsupported extension. -/
def xyzSlot : SlotGeom :=
  { x := 10, y := 10, width := 50, height := 20, rotation := 0,
    label_asset_path := some "label.xyz" }

theorem gridOps_no_placeholder (bw bh : ℚ) :
    (gridOps bw bh).filter isPlaceholderOp = [] := by
  simp [gridOps, List.filter_append, List.filter_map, isPlaceholderOp,
    Function.comp_def]

/-- C9 counterexample: `label.xyz` has an unsupported, non-PDF extension
and exists on disk, yet the composed page contains no placeholder box at
all — the slot is silently skipped, refuting "every unsupported format
renders a labeled placeholder". -/
theorem c9_counterexample :
    (extOf "label.xyz" ∉ imageExtensions) ∧ extOf "label.xyz" ≠ ".pdf" ∧
    envNoPdf2Image.fsExists "label.xyz" = true ∧
    ((compose_blank_canvas envNoPdf2Image 100 100 [xyzSlot]).ops.filter
      isPlaceholderOp) = [] := by
  refine ⟨by decide, by decide, by decide, ?_⟩
  have hxyz : ∀ a b c d e : ℚ,
      place_label envNoPdf2Image "label.xyz" a b c d e = [] := by
    intro a b c d e
    have h1 : extOf "label.xyz" = ".xyz" := by decide
    have h2 : (".xyz" : String) ∉ imageExtensions := by decide
    have h3 : (".xyz" : String) ≠ ".pdf" := by decide
    simp [place_label, place_image, h1, h2, h3, envNoPdf2Image]
  have hcond : (decide (("label.xyz" : String) = "") ||
      !envNoPdf2Image.fsExists "label.xyz") = false := by decide
  simp [compose_blank_canvas, xyzSlot, hcond, hxyz, List.filter_append,
    gridOps_no_placeholder]

/-- C9 (amended): only a `.pdf` asset without the pdf2image converter
renders the labeled placeholder box at the slot box; other unsupported
extensions are attempted as images and silently skipped when unreadable
(shown by the counterexample); and composition always completes, producing
the page with the full reference grid regardless of slot failures. -/
theorem pdf_without_converter_renders_placeholder (env : AssetEnv)
    (path : String) (x y width height rotation : ℚ)
    (hext : extOf path = ".pdf") (hconv : env.hasPdf2Image = false) :
    place_label env path x y width height rotation =
      [DrawOp.placeholderBox rotation
        { x := x, y := y, width := width, height := height } "PDF Label"] ∧
    ∀ (bw bh : ℚ) (slots : List SlotGeom),
      ∃ rest, (compose_blank_canvas env bw bh slots).ops =
        gridOps bw bh ++ rest := by
  constructor
  · have hc : ".pdf" ∉ imageExtensions := by decide
    simp [place_label, place_pdf, hext, hc, hconv]
  · intro bw bh slots
    exact ⟨_, rfl⟩

/-- C9 amended witness: instantiated at the concrete converter-less
environment and a concrete `.pdf` asset. -/
theorem pdf_without_converter_renders_placeholder_witness :
    place_label envNoPdf2Image "label.pdf" 1 2 3 4 0 =
      [DrawOp.placeholderBox 0
        { x := 1, y := 2, width := 3, height := 4 } "PDF Label"] ∧
    ∀ (bw bh : ℚ) (slots : List SlotGeom),
      ∃ rest, (compose_blank_canvas envNoPdf2Image bw bh slots).ops =
        gridOps bw bh ++ rest :=
  pdf_without_converter_renders_placeholder envNoPdf2Image "label.pdf"
    1 2 3 4 0 (by decide) rfl

/-- C10: when the configured base path does not exist on disk, compose_job
silently produces the blank-canvas page — sized to the bed, reference grid
first — and template mode is entered only for a non-empty path that exists
on disk. -/
theorem missing_base_falls_back_to_blank_canvas (env : AssetEnv) (p : String)
    (bed_width_mm bed_height_mm : ℚ) (slots : List SlotGeom)
    (h : env.fsExists p = false) :
    compose_job env (some p) bed_width_mm bed_height_mm slots =
      compose_blank_canvas env (bed_width_mm * mmUnit)
        (bed_height_mm * mmUnit) slots ∧
    (compose_job env (some p) bed_width_mm bed_height_mm slots).used_template
      = false ∧
    (compose_job env (some p) bed_width_mm bed_height_mm slots).page_width =
      bed_width_mm * mmUnit ∧
    (compose_job env (some p) bed_width_mm bed_height_mm slots).page_height =
      bed_height_mm * mmUnit ∧
    (∃ rest, (compose_job env (some p) bed_width_mm bed_height_mm slots).ops =
      gridOps (bed_width_mm * mmUnit) (bed_height_mm * mmUnit) ++ rest) ∧
    (∀ q : Option String,
      (compose_job env q bed_width_mm bed_height_mm slots).used_template = true →
      ∃ p2, q = some p2 ∧ p2 ≠ "" ∧ env.fsExists p2 = true) := by
  have hmain : compose_job env (some p) bed_width_mm bed_height_mm slots =
      compose_blank_canvas env (bed_width_mm * mmUnit)
        (bed_height_mm * mmUnit) slots := by
    simp [compose_job, h]
  refine ⟨hmain, ?_, ?_, ?_, ?_, ?_⟩
  · rw [hmain]
    rfl
  · rw [hmain]
    rfl
  · rw [hmain]
    rfl
  · rw [hmain]
    exact ⟨_, rfl⟩
  intro q hq
  match q with
  | none => exact absurd hq (by simp [compose_job, compose_blank_canvas])
  | some p2 =>
      by_cases hc : (decide (p2 ≠ "") && env.fsExists p2) = true
      · rw [Bool.and_eq_true] at hc
        exact ⟨p2, rfl, by simpa using hc.1, hc.2⟩
      · exfalso
        have hblank : (compose_job env (some p2) bed_width_mm
            bed_height_mm slots).used_template = false := by
          simp only [compose_job]
          rw [if_neg hc]
          rfl
        rw [hblank] at hq
        exact Bool.false_ne_true hq

/-- C10 witness: a configured but missing base path on the concrete
environment. -/
theorem missing_base_falls_back_to_blank_canvas_witness :
    compose_job envNoPdf2Image (some "missing.pdf") 10 20 [] =
      compose_blank_canvas envNoPdf2Image (10 * mmUnit) (20 * mmUnit) [] ∧
    (compose_job envNoPdf2Image (some "missing.pdf") 10 20 []).used_template
      = false ∧
    (compose_job envNoPdf2Image (some "missing.pdf") 10 20 []).page_width =
      10 * mmUnit ∧
    (compose_job envNoPdf2Image (some "missing.pdf") 10 20 []).page_height =
      20 * mmUnit ∧
    (∃ rest, (compose_job envNoPdf2Image (some "missing.pdf") 10 20 []).ops =
      gridOps (10 * mmUnit) (20 * mmUnit) ++ rest) ∧
    (∀ q : Option String,
      (compose_job envNoPdf2Image q 10 20 []).used_template = true →
      ∃ p2, q = some p2 ∧ p2 ≠ "" ∧ envNoPdf2Image.fsExists p2 = true) :=
  missing_base_falls_back_to_blank_canvas envNoPdf2Image "missing.pdf"
    10 20 [] (by decide)

end PrintServer
